import Mathlib

/-!
Verification of the octoeb release tool (`octoeb.py`, `octoeb/utils/formatting.py`)
against its natural-language specification.

The Python strings are embedded as Lean `String`s (lists of characters); the
regular-expression patterns used by the validators are embedded as explicit
regex ASTs matched by a Brzozowski-derivative matcher, together with a
declarative membership relation `RMem` proved equivalent to the matcher.
The `GitHubAPI` class performs HTTP calls; those are embedded as an explicit
environment `Env` describing the outcome of each remote request, and each
workflow method becomes a function from `Env` to a result together with the
list of mutating POST requests it issued.
-/

namespace Octoeb

/-- Regular expressions over `Char`, with a character-class constructor
`cls` (needed because Python's `.` is a co-finite class of characters). -/
inductive Regex : Type where
  | emp : Regex
  | eps : Regex
  | cls : (Char → Bool) → Regex
  | alt : Regex → Regex → Regex
  | cat : Regex → Regex → Regex
  | star : Regex → Regex

namespace Regex

/-- A single literal character, as the singleton class. -/
def chr (c : Char) : Regex := cls (fun d => d == c)

/-- `r?` — the greedy optional; the language is that of `r` plus the empty word. -/
def opt (r : Regex) : Regex := alt r eps

/-- Does the regex accept the empty word? -/
def nullable : Regex → Bool
  | emp => false
  | eps => true
  | cls _ => false
  | alt r s => nullable r || nullable s
  | cat r s => nullable r && nullable s
  | star _ => true

/-- Smart alternation: drops `emp` summands to keep derivatives small. -/
def altS : Regex → Regex → Regex
  | emp, s => s
  | r, emp => r
  | r, s => alt r s

/-- Smart concatenation: absorbs `emp` and elides `eps` factors. -/
def catS : Regex → Regex → Regex
  | emp, _ => emp
  | _, emp => emp
  | eps, s => s
  | r, eps => r
  | r, s => cat r s

/-- Brzozowski derivative with respect to one character. -/
def deriv : Regex → Char → Regex
  | emp, _ => emp
  | eps, _ => emp
  | cls p, c => if p c then eps else emp
  | alt r s, c => altS (deriv r c) (deriv s c)
  | cat r s, c =>
      if nullable r then altS (catS (deriv r c) s) (deriv s c)
      else catS (deriv r c) s
  | star r, c => catS (deriv r c) (star r)

/-- The executable matcher: derive by each character, then test nullability. -/
def rmatch (r : Regex) (s : List Char) : Bool :=
  nullable (s.foldl deriv r)

/-- Declarative regex membership. -/
inductive RMem : Regex → List Char → Prop where
  | eps : RMem .eps []
  | cls {p : Char → Bool} {c : Char} : p c = true → RMem (.cls p) [c]
  | altL {r s : Regex} {w : List Char} : RMem r w → RMem (.alt r s) w
  | altR {r s : Regex} {w : List Char} : RMem s w → RMem (.alt r s) w
  | cat {r s : Regex} {w₁ w₂ : List Char} :
      RMem r w₁ → RMem s w₂ → RMem (.cat r s) (w₁ ++ w₂)
  | starNil {r : Regex} : RMem (.star r) []
  | starCons {r : Regex} {w₁ w₂ : List Char} :
      RMem r w₁ → RMem (.star r) w₂ → RMem (.star r) (w₁ ++ w₂)

/-- Truthiness of Python `re.match(p, str)` for a pattern of the form `^...$`:
the match is anchored at both ends, except that `$` also matches just before
one trailing newline. -/
def pyMatch (r : Regex) (s : String) : Bool :=
  rmatch r s.data ||
    (s.data.getLast? == some '\n' && rmatch r s.data.dropLast)

/-- Declarative counterpart of `pyMatch`. -/
def PyMatches (r : Regex) (s : String) : Prop :=
  RMem r s.data ∨ (s.data.getLast? = some '\n' ∧ RMem r s.data.dropLast)

end Regex

open Regex

/-! ### VersionPolicy (`octoeb/utils/formatting.py`, helpers of `octoeb.py`) -/

/-- Python `s.split('.')`: split at every `'.'`, keeping empty pieces;
`''.split('.') == ['']`. -/
def splitDot : List Char → List (List Char)
  | [] => [[]]
  | c :: cs =>
      if c = '.' then [] :: splitDot cs
      else
        match splitDot cs with
        | [] => [[c]]
        | g :: gs => (c :: g) :: gs

/-- Python `'.'.join(groups)`. -/
def joinDot : List (List Char) → List Char
  | [] => []
  | [g] => g
  | g :: h :: t => g ++ '.' :: joinDot (h :: t)

/-- `extract_major_version` on the underlying character list:
`'.'.join(version.split('.')[:4])`. -/
def extract_major_versionL (v : List Char) : List Char :=
  joinDot ((splitDot v).take 4)

/-- `extract_major_version(version)` from `octoeb.py` / `formatting.py`. -/
def extract_major_version (version : String) : String :=
  ⟨extract_major_versionL version.data⟩

/-- `\d` (ASCII). -/
def digit : Regex := .cls (fun c => c.isDigit)

/-- `[1-9]`. -/
def nonzeroDigit : Regex := .cls (fun c => '1' ≤ c && c ≤ '9')

/-- `[a-zA-Z-]`. -/
def alphaDash : Regex := .cls (fun c => c.isAlpha || c == '-')

/-- `[0-9a-zA-Z-]`. -/
def alnumDash : Regex := .cls (fun c => c.isAlphanum || c == '-')

/-- Python `.`: any character except a newline. -/
def anyChar : Regex := .cls (fun c => !(c == '\n'))

/-- One group `\.?\d+` of the legacy version pattern. -/
def legacyGroup : Regex := .cat (opt (chr '.')) (.cat digit (.star digit))

/-- The legacy dotted-numeric pattern `^(?:\.?\d+){4,5}$`
(`{4,5}` unrolled as four mandatory copies plus one optional copy). -/
def LEGACY_VERSION_REGEX : Regex :=
  .cat legacyGroup (.cat legacyGroup (.cat legacyGroup
    (.cat legacyGroup (opt legacyGroup))))

/-- `(0|[1-9]\d*)`. -/
def numericId : Regex := .alt (chr '0') (.cat nonzeroDigit (.star digit))

/-- `(0|[1-9]\d*|\d*[a-zA-Z-][0-9a-zA-Z-]*)`. -/
def preReleaseId : Regex :=
  .alt (chr '0')
    (.alt (.cat nonzeroDigit (.star digit))
      (.cat (.star digit) (.cat alphaDash (.star alnumDash))))

/-- `[0-9a-zA-Z-]+`. -/
def buildId : Regex := .cat alnumDash (.star alnumDash)

/-- `SEMVER_REGEX` from `formatting.py`:
`^(0|[1-9]\d*)\.(0|[1-9]\d*)\.(0|[1-9]\d*)`
`(-(0|[1-9]\d*|\d*[a-zA-Z-][0-9a-zA-Z-]*)(\.(0|[1-9]\d*|\d*[a-zA-Z-][0-9a-zA-Z-]*))*)?`
`(\+[0-9a-zA-Z-]+(\.[0-9a-zA-Z-]+)*)?$`. -/
def SEMVER_REGEX : Regex :=
  .cat numericId (.cat (chr '.') (.cat numericId (.cat (chr '.')
    (.cat numericId
      (.cat
        (opt (.cat (chr '-')
          (.cat preReleaseId (.star (.cat (chr '.') preReleaseId)))))
        (opt (.cat (chr '+')
          (.cat buildId (.star (.cat (chr '.') buildId))))))))))

/-- The ticket pattern `^EB-\d+(?:-.+)?$`. -/
def TICKET_REGEX : Regex :=
  .cat (chr 'E') (.cat (chr 'B') (.cat (chr '-')
    (.cat digit (.cat (.star digit)
      (opt (.cat (chr '-') (.cat anyChar (.star anyChar))))))))

/-- The error kinds raised by the embedded code. -/
inductive Err : Type where
  /-- `Invalid version number ...` / `Invalid ticket ...` -/
  | invalidFormat : Err
  /-- `Branch already started...` / `Release already created.` -/
  | alreadyExists : Err
  /-- `Could not locate the current SHA ...` (the `KeyError` path) -/
  | shaNotFound : Err
  /-- `Production release tag not found!` -/
  | prodTagNotFound : Err
  /-- `Release must be merged into master before ...` -/
  | mergeRequired : Err
  /-- `requests.exceptions.HTTPError` from `raise_for_status`, with status code -/
  | httpError : Nat → Err
  /-- any other exception from a request (transport failure, JSON decode, ...) -/
  | requestError : Err
  deriving DecidableEq, Repr

instance {ε α : Type} [DecidableEq ε] [DecidableEq α] :
    DecidableEq (Except ε α) := fun a b =>
  match a, b with
  | .ok x, .ok y =>
      if h : x = y then .isTrue (by rw [h]) else .isFalse (by simp [h])
  | .error x, .error y =>
      if h : x = y then .isTrue (by rw [h]) else .isFalse (by simp [h])
  | .ok _, .error _ => .isFalse (by simp)
  | .error _, .ok _ => .isFalse (by simp)

/-- `validate_version` from `octoeb/utils/formatting.py`: accepts the legacy
dotted-numeric pattern or the semver pattern, raises otherwise. -/
def validate_version (version : String) : Except Err Bool :=
  if pyMatch LEGACY_VERSION_REGEX version then .ok true
  else if pyMatch SEMVER_REGEX version then .ok true
  else .error .invalidFormat

/-- `validate_ticket_name` from `octoeb.py`. -/
def validate_ticket_name (name : String) : Except Err Bool :=
  if pyMatch TICKET_REGEX name then .ok true
  else .error .invalidFormat


/-! ### The `GitHubAPI` class (`octoeb.py`)

Each HTTP request made by a method is embedded as a field of an environment
`Env` recording the outcome that request would have during the call.  A
`LookupResult α` is the outcome of one GET/POST: a parsed body, a
`requests.exceptions.HTTPError` raised by `raise_for_status` (carrying the
status code), or any other exception (transport failure, JSON decoding). -/

/-- Outcome of one HTTP request issued by the script. -/
inductive LookupResult (α : Type) : Type where
  /-- 2xx response with parsed JSON body `a` -/
  | ok : α → LookupResult α
  /-- `requests.exceptions.HTTPError` raised by `raise_for_status` -/
  | httpError : Nat → LookupResult α
  /-- any exception that is not an `HTTPError` -/
  | otherError : LookupResult α
  deriving DecidableEq, Repr

/-- The value when the call succeeded, `none` when it raised anything. -/
def LookupResult.toOption {α : Type} : LookupResult α → Option α
  | .ok a => some a
  | .httpError _ => none
  | .otherError => none

/-- The fields of a release JSON object that the script reads.  A missing
`tag_name` key is `none` (the script reads it with `dict.get`). -/
structure ReleaseObj : Type where
  tag_name : Option String := none
  prerelease : Bool := false
  deriving DecidableEq, Repr

/-- The field of a branch-ref JSON object that the script reads:
`branch['object']['sha']`, `none` when the path is missing (`KeyError`). -/
structure BranchObj : Type where
  object_sha : Option String := none
  deriving DecidableEq, Repr

/-- The field of a comparison JSON object that the script reads:
`comparison.get('status')`. -/
structure CompareObj : Type where
  status : Option String := none
  deriving DecidableEq, Repr

/-- The JSON body posted to `releases` (field for field). -/
structure ReleaseInfo : Type where
  tag_name : String
  target_commitish : String
  name : String
  body : String
  draft : Bool
  prerelease : Bool
  deriving DecidableEq, Repr

/-- A mutating request issued by a workflow method. -/
inductive Action : Type where
  /-- `POST git/refs` with `{'ref': ref, 'sha': sha}` -/
  | postRef : (ref : String) → (sha : String) → Action
  /-- `POST releases` with the given body -/
  | postRelease : ReleaseInfo → Action
  deriving DecidableEq, Repr

/-- Outcomes of the remote requests a `GitHubAPI` method can make during one
call.  The remote state is assumed stable for the duration of the call. -/
structure Env : Type where
  /-- `GET releases/latest` (used by `latest_release`) -/
  latestRelease : LookupResult ReleaseObj
  /-- `GET releases` parsed to a list (used by `prereleases`); a JSON-decode
  failure there is caught and yields `.ok []` -/
  releases : LookupResult (List ReleaseObj)
  /-- `GET git/refs/heads/<name>` (used by `get_branch`) -/
  branch : String → LookupResult BranchObj
  /-- `GET releases/tags/<tag>` (used by `get_release`) -/
  release : String → LookupResult ReleaseObj
  /-- `GET compare/<base>...<head>` (used by `compare`) -/
  compare : String → String → LookupResult CompareObj
  /-- `POST git/refs` response status -/
  postRef : String → String → LookupResult Unit
  /-- `POST releases` response status -/
  postRelease : ReleaseInfo → LookupResult Unit

/-- Result of a workflow method: the value returned or exception raised,
plus the list of mutating POST requests it issued, in order. -/
structure OpOut (α : Type) : Type where
  result : Except Err α
  actions : List Action
  deriving DecidableEq, Repr

/-- `GitHubAPI.prereleases`: list releases, filter `x.get('prerelease')`. -/
def prereleases (env : Env) : LookupResult (List ReleaseObj) :=
  match env.releases with
  | .ok l => .ok (l.filter (·.prerelease))
  | .httpError c => .httpError c
  | .otherError => .otherError

/-- `GitHubAPI.latest_prerelease`: first prerelease, raising when none. -/
def latest_prerelease (env : Env) : LookupResult ReleaseObj :=
  match prereleases env with
  | .ok [] => .otherError
  | .ok (x :: _) => .ok x
  | .httpError c => .httpError c
  | .otherError => .otherError

/-- Python string interpolation of an optional value: `None` prints as
`"None"` (this is what `'compare/{}...{}'.format(..)` does to a `None`
base branch). -/
def pyStr : Option String → String
  | some s => s
  | none => "None"

/-- `GitHubAPI.release_branch_name`.  The two remote lookups are wrapped in
bare `try/except`, so any failure degrades to the empty dict `{}`; when
neither major version matches, the Python function falls off the end and
implicitly returns `None` (embedded as `none`). -/
def release_branch_name (env : Env) (release_name : String) : Option String :=
  let release_major_version := extract_major_version release_name
  let prod := (env.latestRelease.toOption).getD {}
  let prod_major_version := extract_major_version (prod.tag_name.getD "")
  if prod_major_version = release_major_version then
    some "master"
  else
    let prod_next := ((latest_prerelease env).toOption).getD {}
    let prod_next_major_version :=
      extract_major_version (prod_next.tag_name.getD "")
    if prod_next_major_version = release_major_version then
      some ("release-" ++ release_major_version)
    else
      none

/-- Modelled from the spec: `resolveReleaseBaseBranch` is
`release_branch_name` with the implicit `None` fall-through made an explicit
`BaseBranchUnresolved` failure (spec §4.3 step 5 and §9). -/
inductive BaseBranchError : Type where
  | baseBranchUnresolved : BaseBranchError
  deriving DecidableEq, Repr

/-- Modelled from the spec: the spec-level view of `release_branch_name`
(`resolveReleaseBaseBranch`), failing `BaseBranchUnresolved` exactly where
the source returns `None`. -/
def resolveReleaseBaseBranch (env : Env) (release_name : String) :
    Except BaseBranchError String :=
  match release_branch_name env release_name with
  | some b => .ok b
  | none => .error .baseBranchUnresolved

/-- `GitHubAPI.check_merge_status`. -/
def check_merge_status (env : Env) (release_name : String) :
    Except Err Bool :=
  let release_base_branch := release_branch_name env release_name
  match env.latestRelease with
  | .httpError c => .error (.httpError c)
  | .otherError => .error .requestError
  | .ok prod =>
    match prod.tag_name with
    | none => .error .prodTagNotFound
    | some prod_tag =>
      match env.compare prod_tag (pyStr release_base_branch) with
      | .httpError c => .error (.httpError c)
      | .otherError => .error .requestError
      | .ok c =>
        if c.status = some "diverged" ∨ c.status = some "ahead" then
          .error .mergeRequired
        else
          .ok true

/-- `GitHubAPI.create_branch`.  The lookup of `name` is guarded by
`except requests.exceptions.HTTPError: pass`, so every `HTTPError` (any
non-2xx status, not just 404) continues; success raises `AlreadyExists`;
any non-`HTTPError` exception propagates. -/
def create_branch (env : Env) (name base_name : String) : OpOut Unit :=
  match env.branch name with
  | .ok _ => ⟨.error .alreadyExists, []⟩
  | .otherError => ⟨.error .requestError, []⟩
  | .httpError _ =>
    match env.branch base_name with
    | .httpError c => ⟨.error (.httpError c), []⟩
    | .otherError => ⟨.error .requestError, []⟩
    | .ok base =>
      match base.object_sha with
      | none => ⟨.error .shaNotFound, []⟩
      | some sha =>
        let act : Action := .postRef ("refs/heads/" ++ name) sha
        match env.postRef ("refs/heads/" ++ name) sha with
        | .ok _ => ⟨.ok (), [act]⟩
        | .httpError c => ⟨.error (.httpError c), [act]⟩
        | .otherError => ⟨.error .requestError, [act]⟩

/-- `GitHubAPI.create_release_branch`. -/
def create_release_branch (env : Env) (release_name : String) : OpOut Unit :=
  create_branch env release_name "develop"

/-- `GitHubAPI.create_hotfix_branch`. -/
def create_hotfix_branch (env : Env) (fix_name : String) : OpOut Unit :=
  create_branch env fix_name "master"

/-- `GitHubAPI.create_pre_release`. -/
def create_pre_release (env : Env) (release_name : String) : OpOut Unit :=
  let name := "release-" ++ extract_major_version release_name
  match env.branch name with
  | .httpError c => ⟨.error (.httpError c), []⟩
  | .otherError => ⟨.error .requestError, []⟩
  | .ok release_branch =>
    match env.release release_name with
    | .ok _ => ⟨.error .alreadyExists, []⟩
    | .otherError => ⟨.error .requestError, []⟩
    | .httpError _ =>
      match release_branch.object_sha with
      | none => ⟨.error .shaNotFound, []⟩
      | some sha =>
        let release_info : ReleaseInfo :=
          { tag_name := release_name
            target_commitish := sha
            name := "release-" ++ release_name
            body := ""
            draft := false
            prerelease := true }
        match env.postRelease release_info with
        | .ok _ => ⟨.ok (), [.postRelease release_info]⟩
        | .httpError c => ⟨.error (.httpError c), [.postRelease release_info]⟩
        | .otherError => ⟨.error .requestError, [.postRelease release_info]⟩

/-- `GitHubAPI.create_release`. -/
def create_release (env : Env) (release_name : String) : OpOut Unit :=
  match env.compare "master"
      ("release-" ++ extract_major_version release_name) with
  | .httpError c => ⟨.error (.httpError c), []⟩
  | .otherError => ⟨.error .requestError, []⟩
  | .ok cmp =>
    if cmp.status = some "diverged" ∨ cmp.status = some "ahead" then
      ⟨.error .mergeRequired, []⟩
    else
      match env.release release_name with
      | .ok _ => ⟨.error .alreadyExists, []⟩
      | .otherError => ⟨.error .requestError, []⟩
      | .httpError _ =>
        match env.branch "master" with
        | .httpError c => ⟨.error (.httpError c), []⟩
        | .otherError => ⟨.error .requestError, []⟩
        | .ok master =>
          match master.object_sha with
          | none => ⟨.error .shaNotFound, []⟩
          | some sha =>
            let release_info : ReleaseInfo :=
              { tag_name := release_name
                target_commitish := sha
                name := "release-" ++ release_name
                body := ""
                draft := false
                prerelease := false }
            match env.postRelease release_info with
            | .ok _ => ⟨.ok (), [.postRelease release_info]⟩
            | .httpError c =>
                ⟨.error (.httpError c), [.postRelease release_info]⟩
            | .otherError =>
                ⟨.error .requestError, [.postRelease release_info]⟩

/-- The `start hotfix <ticket>` CLI path of `octoeb.py`: validate the ticket
name, then create `hotfix-<extract_major_version(ticket)>` from `master`. -/
def start_fix (env : Env) (ticket : String) : OpOut Unit :=
  match validate_ticket_name ticket with
  | .error e => ⟨.error e, []⟩
  | .ok _ =>
      create_hotfix_branch env ("hotfix-" ++ extract_major_version ticket)

/-! ### Concrete remote states used to instantiate the theorems -/

/-- A remote where every request 404s. -/
def env404 : Env where
  latestRelease := .httpError 404
  releases := .httpError 404
  branch := fun _ => .httpError 404
  release := fun _ => .httpError 404
  compare := fun _ _ => .httpError 404
  postRef := fun _ _ => .httpError 404
  postRelease := fun _ => .httpError 404

/-- Production release tagged `17.11.01.00`, no prereleases. -/
def envProdOnly : Env :=
  { env404 with
    latestRelease := .ok { tag_name := some "17.11.01.00" }
    releases := .ok [] }

/-- Production release tagged `1.2.3.4`; every comparison reports `behind`. -/
def envBehind : Env :=
  { env404 with
    latestRelease := .ok { tag_name := some "1.2.3.4" }
    releases := .ok []
    compare := fun _ _ => .ok { status := some "behind" } }

/-- Production release tagged `1.2.3.4`; comparisons come back without any
`status` field. -/
def envNoStatus : Env :=
  { env404 with
    latestRelease := .ok { tag_name := some "1.2.3.4" }
    releases := .ok []
    compare := fun _ _ => .ok { status := none } }

/-- A remote where looking up any branch but `develop` fails with HTTP 500
and branch creation succeeds. -/
def envLookup500 : Env :=
  { env404 with
    branch := fun n =>
      if n = "develop" then .ok { object_sha := some "devsha" }
      else .httpError 500
    postRef := fun _ _ => .ok () }

/-- A remote holding only a `master` branch at SHA `mastersha`; branch
creation succeeds. -/
def envHotfix : Env :=
  { env404 with
    branch := fun n =>
      if n = "master" then .ok { object_sha := some "mastersha" }
      else .httpError 404
    postRef := fun _ _ => .ok () }

/-- A remote where release `1.2.3.4` already exists and `master` is behind
nothing (comparison `identical`). -/
def envRelExists : Env :=
  { env404 with
    release := fun t =>
      if t = "1.2.3.4" then .ok { tag_name := some "1.2.3.4" }
      else .httpError 404
    compare := fun _ _ => .ok { status := some "identical" }
    branch := fun n =>
      if n = "master" then .ok { object_sha := some "mastersha" }
      else .httpError 404 }

/-- A remote with a `release-1.2.3.4` branch at SHA `relsha` and no release
tagged `1.2.3.4.9`; release creation succeeds. -/
def envPre : Env :=
  { env404 with
    branch := fun n =>
      if n = "release-1.2.3.4" then .ok { object_sha := some "relsha" }
      else .httpError 404
    release := fun _ => .httpError 404
    postRelease := fun _ => .ok () }


/-! ### Regex engine correctness -/

namespace Regex

@[simp] theorem RMem.emp_iff {w : List Char} : RMem .emp w ↔ False := by
  constructor
  · intro h; cases h
  · intro h; exact h.elim

@[simp] theorem RMem.eps_iff {w : List Char} : RMem .eps w ↔ w = [] := by
  constructor
  · intro h; cases h; rfl
  · rintro rfl; exact .eps

@[simp] theorem RMem.cls_iff {p : Char → Bool} {w : List Char} :
    RMem (.cls p) w ↔ ∃ c, w = [c] ∧ p c = true := by
  constructor
  · intro h; cases h with
    | cls hp => exact ⟨_, rfl, hp⟩
  · rintro ⟨c, rfl, hp⟩; exact .cls hp

@[simp] theorem RMem.alt_iff {r s : Regex} {w : List Char} :
    RMem (.alt r s) w ↔ RMem r w ∨ RMem s w := by
  constructor
  · intro h; cases h with
    | altL h => exact Or.inl h
    | altR h => exact Or.inr h
  · rintro (h | h)
    · exact .altL h
    · exact .altR h

@[simp] theorem RMem.cat_iff {r s : Regex} {w : List Char} :
    RMem (.cat r s) w ↔ ∃ w₁ w₂, w = w₁ ++ w₂ ∧ RMem r w₁ ∧ RMem s w₂ := by
  constructor
  · intro h; cases h with
    | cat h₁ h₂ => exact ⟨_, _, rfl, h₁, h₂⟩
  · rintro ⟨w₁, w₂, rfl, h₁, h₂⟩; exact .cat h₁ h₂

theorem RMem.chr_iff {c : Char} {w : List Char} : RMem (chr c) w ↔ w = [c] := by
  simp only [chr, cls_iff, beq_iff_eq]
  constructor
  · rintro ⟨d, rfl, rfl⟩; rfl
  · rintro rfl; exact ⟨c, rfl, rfl⟩

theorem nullable_iff {r : Regex} : nullable r = true ↔ RMem r [] := by
  induction r with
  | emp => simp [nullable]
  | eps => simp [nullable]
  | cls p => simp [nullable]
  | alt r s ihr ihs => simp [nullable, Bool.or_eq_true, ihr, ihs]
  | cat r s ihr ihs =>
      simp only [nullable, Bool.and_eq_true, ihr, ihs, RMem.cat_iff]
      constructor
      · rintro ⟨h₁, h₂⟩; exact ⟨[], [], rfl, h₁, h₂⟩
      · rintro ⟨w₁, w₂, he, h₁, h₂⟩
        rcases List.append_eq_nil.mp he.symm with ⟨rfl, rfl⟩
        exact ⟨h₁, h₂⟩
  | star r ih =>
      simp only [nullable, true_iff]
      exact .starNil

theorem RMem.altS_iff {r s : Regex} {w : List Char} :
    RMem (altS r s) w ↔ RMem r w ∨ RMem s w := by
  cases r <;> cases s <;> simp [altS]

theorem exists_append_nil_left {P : List Char → Prop} {w : List Char} :
    (∃ w₁ w₂, w = w₁ ++ w₂ ∧ w₁ = [] ∧ P w₂) ↔ P w := by
  constructor
  · rintro ⟨w₁, w₂, rfl, rfl, h⟩; simpa using h
  · intro h; exact ⟨[], w, rfl, rfl, h⟩

theorem exists_append_nil_right {P : List Char → Prop} {w : List Char} :
    (∃ w₁ w₂, w = w₁ ++ w₂ ∧ P w₁ ∧ w₂ = []) ↔ P w := by
  constructor
  · rintro ⟨w₁, w₂, rfl, h, rfl⟩; simpa using h
  · intro h; exact ⟨w, [], (List.append_nil w).symm, h, rfl⟩

theorem RMem.catS_iff {r s : Regex} {w : List Char} :
    RMem (catS r s) w ↔ ∃ w₁ w₂, w = w₁ ++ w₂ ∧ RMem r w₁ ∧ RMem s w₂ := by
  cases r <;> cases s <;>
    simp [catS, exists_append_nil_left, exists_append_nil_right]

theorem RMem.star_cons_aux {t : Regex} {u : List Char} (h : RMem t u) :
    ∀ {r : Regex} {c : Char} {w : List Char}, t = .star r → u = c :: w →
      ∃ w₁ w₂, w = w₁ ++ w₂ ∧ RMem r (c :: w₁) ∧ RMem (.star r) w₂ := by
  induction h with
  | eps => intro r c w ht hu; exact Regex.noConfusion ht
  | cls _ => intro r c w ht hu; exact Regex.noConfusion ht
  | altL _ _ => intro r c w ht hu; exact Regex.noConfusion ht
  | altR _ _ => intro r c w ht hu; exact Regex.noConfusion ht
  | cat _ _ _ _ => intro r c w ht hu; exact Regex.noConfusion ht
  | starNil => intro r c w ht hu; exact List.noConfusion hu
  | starCons h₁ h₂ ih₁ ih₂ =>
      intro r c w ht hu
      injection ht with hr
      subst hr
      rename_i w₁ w₂
      cases w₁ with
      | nil => exact ih₂ rfl hu
      | cons d w₁' =>
          injection hu with hd hw
          subst hd
          exact ⟨w₁', w₂, hw.symm, h₁, h₂⟩

theorem RMem.star_cons_iff {r : Regex} {c : Char} {w : List Char} :
    RMem (.star r) (c :: w) ↔
      ∃ w₁ w₂, w = w₁ ++ w₂ ∧ RMem r (c :: w₁) ∧ RMem (.star r) w₂ := by
  constructor
  · intro h; exact star_cons_aux h rfl rfl
  · rintro ⟨w₁, w₂, rfl, h₁, h₂⟩
    exact (RMem.starCons h₁ h₂ : RMem _ ((c :: w₁) ++ w₂))

/-- Correctness of the Brzozowski derivative against declarative membership. -/
theorem deriv_iff {r : Regex} {c : Char} {w : List Char} :
    RMem (deriv r c) w ↔ RMem r (c :: w) := by
  induction r generalizing w with
  | emp => simp [deriv]
  | eps => simp [deriv]
  | cls p =>
      cases hpc : p c with
      | false => simp [deriv, hpc]
      | true =>
          simp only [deriv, hpc, if_true, RMem.eps_iff, RMem.cls_iff,
            List.cons.injEq]
          constructor
          · rintro rfl; exact ⟨c, ⟨rfl, rfl⟩, hpc⟩
          · rintro ⟨d, ⟨rfl, rfl⟩, _⟩; rfl
  | alt r s ihr ihs => simp [deriv, RMem.altS_iff, ihr, ihs]
  | cat r s ihr ihs =>
      cases hn : nullable r with
      | false =>
          simp only [deriv, hn, Bool.false_eq_true, if_false, RMem.catS_iff,
            ihr, RMem.cat_iff]
          constructor
          · rintro ⟨w₁, w₂, rfl, h₁, h₂⟩; exact ⟨c :: w₁, w₂, rfl, h₁, h₂⟩
          · rintro ⟨w₁, w₂, he, h₁, h₂⟩
            cases w₁ with
            | nil =>
                exact absurd (nullable_iff.mpr h₁) (by simp [hn])
            | cons d w₁' =>
                injection he with hd hw
                subst hd
                exact ⟨w₁', w₂, hw, h₁, h₂⟩
      | true =>
          simp only [deriv, hn, if_true, RMem.altS_iff, RMem.catS_iff, ihr,
            ihs, RMem.cat_iff]
          constructor
          · rintro (⟨w₁, w₂, rfl, h₁, h₂⟩ | h)
            · exact ⟨c :: w₁, w₂, rfl, h₁, h₂⟩
            · exact ⟨[], c :: w, rfl, nullable_iff.mp hn, h⟩
          · rintro ⟨w₁, w₂, he, h₁, h₂⟩
            cases w₁ with
            | nil =>
                right
                simp only [List.nil_append] at he
                rwa [← he] at h₂
            | cons d w₁' =>
                left
                injection he with hd hw
                subst hd
                exact ⟨w₁', w₂, hw, h₁, h₂⟩
  | star r ih =>
      simp only [deriv, RMem.catS_iff, ih]
      rw [RMem.star_cons_iff]

/-- The matcher decides declarative membership. -/
theorem rmatch_iff {r : Regex} {s : List Char} : rmatch r s = true ↔ RMem r s := by
  induction s generalizing r with
  | nil => exact nullable_iff
  | cons c s ih =>
      have hstep : rmatch r (c :: s) = rmatch (deriv r c) s := rfl
      rw [hstep, ih]
      exact deriv_iff

theorem pyMatch_iff {r : Regex} {s : String} :
    pyMatch r s = true ↔ PyMatches r s := by
  simp [pyMatch, PyMatches, rmatch_iff]


end Regex

/-! ### Properties of `splitDot` / `joinDot` -/

theorem splitDot_ne_nil (v : List Char) : splitDot v ≠ [] := by
  induction v with
  | nil => simp [splitDot]
  | cons c cs ih =>
      simp only [splitDot]
      split
      · simp
      · split <;> simp

theorem splitDot_mem_not_dot (v : List Char) :
    ∀ g ∈ splitDot v, '.' ∉ g := by
  induction v with
  | nil =>
      intro g hg
      simp only [splitDot, List.mem_singleton] at hg
      simp [hg]
  | cons c cs ih =>
      intro g hg
      simp only [splitDot] at hg
      by_cases hc : c = '.'
      · rw [if_pos hc] at hg
        rcases List.mem_cons.mp hg with rfl | hg
        · simp
        · exact ih g hg
      · rw [if_neg hc] at hg
        cases hsp : splitDot cs with
        | nil => exact absurd hsp (splitDot_ne_nil cs)
        | cons g0 gs =>
            rw [hsp] at hg
            rcases List.mem_cons.mp hg with rfl | hg
            · intro hmem
              rcases List.mem_cons.mp hmem with hdc | hmem
              · exact hc hdc.symm
              · exact ih g0 (by rw [hsp]; exact List.mem_cons_self g0 gs) hmem
            · exact ih g (by rw [hsp]; exact List.mem_cons_of_mem g0 hg)

theorem splitDot_no_dot {g : List Char} (h : '.' ∉ g) : splitDot g = [g] := by
  induction g with
  | nil => rfl
  | cons c cs ih =>
      have hc : ¬(c = '.') := fun hcd => h (by rw [hcd]; exact List.mem_cons_self _ _)
      have hcs : '.' ∉ cs := fun hm => h (List.mem_cons_of_mem c hm)
      simp only [splitDot, if_neg hc, ih hcs]

theorem splitDot_append_dot {g : List Char} (r : List Char) (h : '.' ∉ g) :
    splitDot (g ++ '.' :: r) = g :: splitDot r := by
  induction g with
  | nil => simp [splitDot]
  | cons c cs ih =>
      have hc : ¬(c = '.') := fun hcd => h (by rw [hcd]; exact List.mem_cons_self _ _)
      have hcs : '.' ∉ cs := fun hm => h (List.mem_cons_of_mem c hm)
      simp only [List.cons_append, splitDot, if_neg hc, List.append_eq, ih hcs]

theorem splitDot_joinDot :
    ∀ l : List (List Char), l ≠ [] → (∀ g ∈ l, '.' ∉ g) →
      splitDot (joinDot l) = l
  | [], hne, _ => absurd rfl hne
  | [g], _, hdot => by
      simp only [joinDot]
      exact splitDot_no_dot (hdot g (List.mem_singleton_self g))
  | g :: h' :: t, _, hdot => by
      simp only [joinDot]
      rw [splitDot_append_dot (joinDot (h' :: t)) (hdot g (List.mem_cons_self _ _))]
      rw [splitDot_joinDot (h' :: t) (by simp)
        (fun x hx => hdot x (List.mem_cons_of_mem g hx))]

theorem extract_major_versionL_idem (v : List Char) :
    extract_major_versionL (extract_major_versionL v) =
      extract_major_versionL v := by
  unfold extract_major_versionL
  have hne : (splitDot v).take 4 ≠ [] := by
    cases h : splitDot v with
    | nil => exact absurd h (splitDot_ne_nil v)
    | cons a t => simp
  have hdot : ∀ g ∈ (splitDot v).take 4, '.' ∉ g := fun g hg =>
    splitDot_mem_not_dot v g (List.take_subset 4 (splitDot v) hg)
  rw [splitDot_joinDot ((splitDot v).take 4) hne hdot]
  simp [List.take_take]

/-! ### The claims -/

/-- C2: `validate_version` returns true exactly on strings matched by the
legacy dotted-numeric pattern `^(?:\.?\d+){4,5}$` or by the semver pattern,
and fails `InvalidFormat` on every other string; in particular `"1.0.0"`,
`"17.11.01"` and `"17.12.11"` are accepted while `"abc"` and `"1.2"` are
rejected. -/
theorem validate_version_spec :
    (∀ s : String,
      (validate_version s = .ok true ↔
        (PyMatches LEGACY_VERSION_REGEX s ∨ PyMatches SEMVER_REGEX s)) ∧
      (validate_version s = .error .invalidFormat ↔
        ¬(PyMatches LEGACY_VERSION_REGEX s ∨ PyMatches SEMVER_REGEX s))) ∧
    validate_version "1.0.0" = .ok true ∧
    validate_version "17.11.01" = .ok true ∧
    validate_version "17.12.11" = .ok true ∧
    validate_version "abc" = .error .invalidFormat ∧
    validate_version "1.2" = .error .invalidFormat := by
  refine ⟨fun s => ?_, by decide, by decide, by decide, by decide, by decide⟩
  cases hL : pyMatch LEGACY_VERSION_REGEX s with
  | true =>
      have hPM := Regex.pyMatch_iff.mp hL
      simp [validate_version, hL, hPM]
  | false =>
      have hnL : ¬ PyMatches LEGACY_VERSION_REGEX s := fun hm => by
        rw [← Regex.pyMatch_iff] at hm
        simp [hm] at hL
      cases hS : pyMatch SEMVER_REGEX s with
      | true =>
          have hPM := Regex.pyMatch_iff.mp hS
          simp [validate_version, hL, hS, hPM]
      | false =>
          have hnS : ¬ PyMatches SEMVER_REGEX s := fun hm => by
            rw [← Regex.pyMatch_iff] at hm
            simp [hm] at hS
          simp [validate_version, hL, hS, hnL, hnS]

/-- C9: `extract_major_version` is idempotent: applying it twice gives the
same string as applying it once (its result has at most four dot-separated
components). -/
theorem extract_major_version_idem (s : String) :
    extract_major_version (extract_major_version s) =
      extract_major_version s :=
  congrArg String.mk (extract_major_versionL_idem s.data)

/-- C1: for every version whose major version differs from the production
release's major version and from the prerelease's major version (both read
with fallback `""` when the lookup fails, covering the no-release case),
`release_branch_name` yields no branch name: the spec-level
`resolveReleaseBaseBranch` fails `BaseBranchUnresolved`. -/
theorem resolveReleaseBaseBranch_unresolved (env : Env) (v : String)
    (h1 : extract_major_version
        ((env.latestRelease.toOption.getD {}).tag_name.getD "") ≠
      extract_major_version v)
    (h2 : extract_major_version
        (((latest_prerelease env).toOption.getD {}).tag_name.getD "") ≠
      extract_major_version v) :
    resolveReleaseBaseBranch env v = .error .baseBranchUnresolved := by
  simp [resolveReleaseBaseBranch, release_branch_name, h1, h2]

/-- Witness for C1: production release tag `17.11.01.00`, requested version
`17.11.02.00`, no open prerelease. -/
theorem resolveReleaseBaseBranch_unresolved_witness :
    resolveReleaseBaseBranch envProdOnly "17.11.02.00" =
      .error .baseBranchUnresolved :=
  resolveReleaseBaseBranch_unresolved envProdOnly "17.11.02.00"
    (by decide) (by decide)

/-- C5 (amended): when the requested version's major version equals the
production release tag's major version, the base branch resolves to
`master`.  (The claim's cited instance `17.11.01.05` does not satisfy this:
its major version is `17.11.01.05`, not `17.11.01.00`; see the
counterexample.) -/
theorem release_branch_name_master (env : Env) (v : String)
    (h : extract_major_version
        ((env.latestRelease.toOption.getD {}).tag_name.getD "") =
      extract_major_version v) :
    resolveReleaseBaseBranch env v = .ok "master" := by
  simp [resolveReleaseBaseBranch, release_branch_name, h]

/-- Witness for C5 (amended): production release tag `17.11.01.00`,
requested version `17.11.01.00.05` (a fifth component, same major). -/
theorem release_branch_name_master_witness :
    resolveReleaseBaseBranch envProdOnly "17.11.01.00.05" = .ok "master" :=
  release_branch_name_master envProdOnly "17.11.01.00.05" (by decide)

/-- Counterexample for C5 as stated: with production release tag
`17.11.01.00` and no prerelease, requested version `17.11.01.05` does NOT
resolve to `master` (its first four components differ from the tag's), so
the claim's end-to-end instance is false on the code. -/
theorem release_branch_name_master_counterexample :
    resolveReleaseBaseBranch envProdOnly "17.11.01.05" ≠ .ok "master" := by
  decide

/-- C4: given that the latest-release lookup and the comparison of its tag
against the resolved base branch both succeed, `check_merge_status` fails
`MergeRequired` exactly when the comparison status is `diverged` or `ahead`,
and succeeds when it is `behind` or `identical`. -/
theorem check_merge_status_gate (env : Env) (v : String)
    (prod : ReleaseObj) (tag : String) (c : CompareObj)
    (hprod : env.latestRelease = .ok prod)
    (htag : prod.tag_name = some tag)
    (hcmp : env.compare tag (pyStr (release_branch_name env v)) = .ok c) :
    (check_merge_status env v = .error .mergeRequired ↔
      (c.status = some "diverged" ∨ c.status = some "ahead")) ∧
    ((c.status = some "behind" ∨ c.status = some "identical") →
      check_merge_status env v = .ok true) := by
  have hrun : check_merge_status env v =
      (if c.status = some "diverged" ∨ c.status = some "ahead" then
        .error .mergeRequired else .ok true) := by
    simp [check_merge_status, hprod, htag, hcmp]
  constructor
  · rw [hrun]
    by_cases hst : c.status = some "diverged" ∨ c.status = some "ahead" <;>
      simp [hst]
  · intro hbi
    have hn : ¬(c.status = some "diverged" ∨ c.status = some "ahead") := by
      rcases hbi with h | h <;> rw [h] <;> decide
    rw [hrun, if_neg hn]

/-- Witness for C4: comparison status `behind` passes the gate. -/
theorem check_merge_status_gate_witness :
    check_merge_status envBehind "1.2.3.4" = .ok true := by
  have h := check_merge_status_gate envBehind "1.2.3.4"
    { tag_name := some "1.2.3.4" } "1.2.3.4" { status := some "behind" }
    rfl rfl rfl
  exact h.2 (Or.inl rfl)

/-- C10: `check_merge_status` raises `MergeRequired` only when the
comparison's status field is exactly `diverged` or `ahead`; any other
value — including an absent status field — passes the gate and the call
returns true. -/
theorem check_merge_status_status_only (env : Env) (v : String)
    (prod : ReleaseObj) (tag : String) (c : CompareObj)
    (hprod : env.latestRelease = .ok prod)
    (htag : prod.tag_name = some tag)
    (hcmp : env.compare tag (pyStr (release_branch_name env v)) = .ok c) :
    (check_merge_status env v = .error .mergeRequired →
      (c.status = some "diverged" ∨ c.status = some "ahead")) ∧
    (¬(c.status = some "diverged" ∨ c.status = some "ahead") →
      check_merge_status env v = .ok true) := by
  have hrun : check_merge_status env v =
      (if c.status = some "diverged" ∨ c.status = some "ahead" then
        .error .mergeRequired else .ok true) := by
    simp [check_merge_status, hprod, htag, hcmp]
  constructor
  · intro hm
    by_contra hst
    rw [hrun, if_neg hst] at hm
    simp at hm
  · intro hst
    rw [hrun, if_neg hst]

/-- Witness for C10: a comparison response carrying no status field at all
passes the merge-safety gate. -/
theorem check_merge_status_status_only_witness :
    check_merge_status envNoStatus "1.2.3.4" = .ok true := by
  have h := check_merge_status_status_only envNoStatus "1.2.3.4"
    { tag_name := some "1.2.3.4" } "1.2.3.4" { status := none } rfl rfl rfl
  exact h.2 (by decide)

/-- C6: when the merge gate passes and `get_release(version)` succeeds,
`create_release` fails `AlreadyExists` and issues no POST at all (the
remote state is unchanged). -/
theorem create_release_already_exists (env : Env) (v : String)
    (r : ReleaseObj) (c : CompareObj)
    (hrel : env.release v = .ok r)
    (hcmp : env.compare "master" ("release-" ++ extract_major_version v) =
      .ok c)
    (hst : ¬(c.status = some "diverged" ∨ c.status = some "ahead")) :
    create_release env v = ⟨.error .alreadyExists, []⟩ := by
  simp [create_release, hcmp, hst, hrel]

/-- Witness for C6: release `1.2.3.4` already exists and the comparison is
`identical`. -/
theorem create_release_already_exists_witness :
    create_release envRelExists "1.2.3.4" = ⟨.error .alreadyExists, []⟩ :=
  create_release_already_exists envRelExists "1.2.3.4"
    { tag_name := some "1.2.3.4" } { status := some "identical" }
    (by decide) (by decide) (by decide)

/-- C7: when `create_pre_release` reaches the creation step (release branch
found with a SHA, no release with that tag), the posted release has
`tag_name = version`, `target_commitish` = the tip SHA of branch
`release-<extract_major_version version>`, `name = "release-" + version`,
empty body, `draft = false` and `prerelease = true`. -/
theorem create_pre_release_fields (env : Env) (v : String)
    (b : BranchObj) (sha : String) (code : Nat)
    (hbr : env.branch ("release-" ++ extract_major_version v) = .ok b)
    (hsha : b.object_sha = some sha)
    (hrel : env.release v = .httpError code) :
    (create_pre_release env v).actions =
      [.postRelease ⟨v, sha, "release-" ++ v, "", false, true⟩] := by
  simp only [create_pre_release, hbr, hrel, hsha]
  split <;> rfl

/-- Witness for C7: version `1.2.3.4.9` over branch `release-1.2.3.4` at
SHA `relsha`. -/
theorem create_pre_release_fields_witness :
    (create_pre_release envPre "1.2.3.4.9").actions =
      [.postRelease
        ⟨"1.2.3.4.9", "relsha", "release-1.2.3.4.9", "", false, true⟩] :=
  create_pre_release_fields envPre "1.2.3.4.9"
    { object_sha := some "relsha" } "relsha" 404 (by decide) rfl (by decide)

/-- C3: the code contradicts its own comment (`continue if we get a 404`):
`create_branch` catches every `HTTPError` from the duplicate-check lookup,
so a remote 500 on the lookup is treated as absence and the branch is
created anyway, instead of propagating. -/
theorem create_branch_swallows_server_error :
    envLookup500.branch "release-17.11.01.00" = .httpError 500 ∧
    create_branch envLookup500 "release-17.11.01.00" "develop" =
      ⟨.ok (), [.postRef "refs/heads/release-17.11.01.00" "devsha"]⟩ := by
  exact ⟨by decide, by decide⟩

/-- C8 (amended): for every valid ticket name `t`, the `start hotfix` path
creates a branch named `"hotfix-" ++ extract_major_version t` (which equals
`"hotfix-" ++ t` only when `t` has at most four dot-separated components),
based at `master`'s current SHA. -/
theorem start_fix_creates_truncated_hotfix_branch (env : Env)
    (t sha : String)
    (hvalid : validate_ticket_name t = .ok true)
    (hlook : env.branch ("hotfix-" ++ extract_major_version t) =
      .httpError 404)
    (hmaster : env.branch "master" = .ok { object_sha := some sha }) :
    (start_fix env t).actions =
      [.postRef ("refs/heads/" ++ ("hotfix-" ++ extract_major_version t))
        sha] := by
  simp only [start_fix, hvalid, create_hotfix_branch, create_branch, hlook,
    hmaster]
  split <;> rfl

/-- Witness for C8 (amended): ticket `EB-123` (no dots, so the name is
`hotfix-EB-123`) based at `master`'s SHA. -/
theorem start_fix_creates_truncated_hotfix_branch_witness :
    (start_fix envHotfix "EB-123").actions =
      [.postRef "refs/heads/hotfix-EB-123" "mastersha"] :=
  start_fix_creates_truncated_hotfix_branch envHotfix "EB-123" "mastersha"
    (by decide) (by decide) (by decide)

/-- Counterexample for C8 as stated: `EB-1-a.b.c.d.e` is a valid ticket
name, but the branch created is `hotfix-EB-1-a.b.c.d` — the fifth
dot-component of the ticket is silently dropped, so the branch is not named
`"hotfix-" ++ t`. -/
theorem start_fix_hotfix_name_not_ticket :
    validate_ticket_name "EB-1-a.b.c.d.e" = .ok true ∧
    (start_fix envHotfix "EB-1-a.b.c.d.e").actions =
      [.postRef "refs/heads/hotfix-EB-1-a.b.c.d" "mastersha"] ∧
    "refs/heads/hotfix-EB-1-a.b.c.d" ≠
      "refs/heads/" ++ ("hotfix-" ++ "EB-1-a.b.c.d.e") :=
  ⟨by decide, by decide, by decide⟩

end Octoeb
